import Mathlib

/-!
Shallow embedding of the KavitaKosh scraper (`scraper.py`) and proofs about
its link classification, work-pattern matching, content extraction and
work resolution logic.

Python string primitives (`str.replace`, `str.split`, `str.strip`,
`str.startswith`, the `in` substring test) are modelled by structurally
recursive functions on `List Char`, so that every definition evaluates
inside the kernel.  Pages parsed by BeautifulSoup are modelled abstractly:
a page carries the anchors found under `#mw-content-text`, a
`selectOne` lookup returning the first node matching a CSS selector
(with its Python truthiness and its `get_text("\n", strip=True)` text),
and the text of the whole page.
-/

/-- Python `needle in hay` at a single position: `needle.isPrefixOf` at each
suffix of `hay`.  `containsAux needle s` is true iff `needle` occurs as a
contiguous substring of `s` (the empty needle always occurs). -/
def containsAux (needle : List Char) : List Char → Bool
  | [] => needle.isPrefixOf []
  | c :: cs => needle.isPrefixOf (c :: cs) || containsAux needle cs

/-- Python `needle in hay` on strings. -/
def pyContains (hay needle : String) : Bool :=
  containsAux needle.data hay.data

/-- Python `s.startswith(p)`. -/
def pyStartsWith (s p : String) : Bool :=
  p.data.isPrefixOf s.data

/-- One left-to-right, non-overlapping replacement pass of Python
`s.replace(pat, rep)`, with fuel (fuel `s.length` always suffices since each
step consumes at least one character; an empty pattern never fires, matching
the fact that the scraper only replaces non-empty patterns). -/
def replFuel (pat rep : List Char) : Nat → List Char → List Char
  | 0, s => s
  | n + 1, s =>
    match s with
    | [] => []
    | c :: cs =>
      if pat.isPrefixOf s && !pat.isEmpty then
        rep ++ replFuel pat rep n (s.drop pat.length)
      else
        c :: replFuel pat rep n cs

/-- Python `s.replace(pat, rep)`. -/
def pyReplace (s pat rep : String) : String :=
  ⟨replFuel pat.data rep.data s.data.length s.data⟩

/-- Python `s.strip()`: drop whitespace from both ends. -/
def listTrim (l : List Char) : List Char :=
  ((l.dropWhile Char.isWhitespace).reverse.dropWhile Char.isWhitespace).reverse

/-- Python `s.strip()` on strings. -/
def pyStrip (s : String) : String :=
  ⟨listTrim s.data⟩

/-- Tokenizer behind Python `s.split()` (no argument): maximal runs of
non-whitespace characters; `cur` is the current token, reversed. -/
def wsTokensAux : List Char → List Char → List (List Char)
  | cur, [] => if cur.isEmpty then [] else [cur.reverse]
  | cur, c :: cs =>
    if c.isWhitespace then
      if cur.isEmpty then wsTokensAux [] cs else cur.reverse :: wsTokensAux [] cs
    else
      wsTokensAux (c :: cur) cs

/-- Python `s.split()`: whitespace-delimited tokens, empties discarded. -/
def pySplitWs (s : String) : List String :=
  (wsTokensAux [] s.data).map fun l => ⟨l⟩

/-- Splitting on a separator with fuel, Python `s.split(sep)` semantics for a
non-empty `sep`: `"" ↦ [""]`, separators at the ends produce empty pieces. -/
def splitFuel (sep : List Char) : Nat → List Char → List (List Char)
  | 0, s => [s]
  | n + 1, s =>
    if sep.isPrefixOf s && !sep.isEmpty then
      [] :: splitFuel sep n (s.drop sep.length)
    else
      match s with
      | [] => [[]]
      | c :: cs =>
        match splitFuel sep n cs with
        | [] => [[c]]
        | piece :: rest => (c :: piece) :: rest

/-- Python `s.split(sep)` on strings (non-empty `sep`). -/
def pySplitOn (s sep : String) : List String :=
  (splitFuel sep.data s.data.length s.data).map fun l => ⟨l⟩

/-- The string `''` (two straight apostrophes), written with escapes. -/
def doubledApos : String := "\u0027\u0027"

/-! ## Page model -/

/-- An anchor inside `#mw-content-text`: `text` is the raw `a.get_text()`
result and `href` the value of `a.get("href") or ""`. -/
structure Anchor where
  text : String
  href : String
deriving Repr, DecidableEq

/-- A node returned by `soup.select_one(selector)`: `truthy` is its Python
truthiness (a BeautifulSoup tag is truthy iff it has children) and `text` is
its `get_text("\n", strip=True)` extraction. -/
structure Tag where
  truthy : Bool
  text : String
deriving Repr, DecidableEq

/-- A parsed page (`BeautifulSoup` document): the anchors selected by
`#mw-content-text a`, the `select_one` lookup, and the whole-page
`get_text("\n", strip=True)` text. -/
structure Page where
  anchors : List Anchor
  selectOne : String → Option Tag
  fullText : String

/-! ## Translated scraper definitions -/

def BASE_URL : String := "https://kavitakosh.org"

def SKIP_LINK_WORDS : List String :=
  ["पृष्ठ", "स्रोत देखें", "इतिहास", "चर्चा", "लॉग इन", "लॉगिन", "कविता कोश खोज", "ई-पत्रिकाएँ", "ई-पुस्तकें", "विधाएँ", "विषय", "फ़िल्मी गीत", "फ़िल्मी गीत", "अनुवाद", "श्रेणी", "मुखपृष्ठ", "विदेशी", "कविता कोश", "महत्त्वपूर्ण कड़ियाँ", "नए जुड़े पन्नों की सूची", "अन्य भाषाएँ", "टाइपिंग टूल्स", "गद्य कोश", "रचनाकारों की सूची"]

def LANG_WORDS : List String :=
  ["हिन्दी", "हिन्दी / उर्दू", "उर्दू", "भोजपुरी", "मैथिली", "राजस्थानी", "अंगिका", "अवधी", "नेपाली", "हरियाणवी", "ब्रज भाषा", "संस्कृतम्", "छत्तीसगढ़ी", "सिन्धी", "मराठी", "गुजराती", "पालि", "गढ़वाली"]

/-- `is_navigation_text` from `scraper.py` (lines 48–57). -/
def is_navigation_text (text : String) : Bool :=
  if text = "" then true
  else
    let t := pyStrip text
    if SKIP_LINK_WORDS.contains t || LANG_WORDS.contains t then true
    else if pyContains t "..." || pyContains t "|" then true
    else false

/-- `normalize_poet_name` from `scraper.py` (lines 97–98). -/
def normalize_poet_name (name : String) : String :=
  pyStrip (pyReplace (pyReplace (pyReplace name "“" "\"") "”" "\"") doubledApos "\"")

/-- `text.split("/")[-1].strip()` — the part of the link text after the last
slash (lines 128 and 180). -/
def lastPartAfterSlash (text : String) : String :=
  pyStrip ((pySplitOn text "/").getLastD "")

/-- Per-anchor acceptance test of `get_poet_list` (lines 70–80), mirroring the
`continue` chain: article-namespace href, non-navigation text, and not a
category or talk page. -/
def poetIndexAccepts (a : Anchor) : Bool :=
  let name := pyStrip a.text
  let href := a.href
  if !pyStartsWith href "/kk/" then false
  else if is_navigation_text name then false
  else if pyStartsWith href "/kk/श्रेणी:" || pyStartsWith href "/kk/वार्ता:" then false
  else true

/-- The accumulation loop of `get_poet_list` (lines 68–90): append accepted
anchors as `(name, BASE_URL + href)` and stop once `limit` entries are
collected. -/
def poetLoop : List Anchor → Nat → List (String × String) → List (String × String)
  | [], _, acc => acc
  | a :: rest, limit, acc =>
    if poetIndexAccepts a then
      let acc2 := acc ++ [(pyStrip a.text, BASE_URL ++ a.href)]
      if limit ≤ acc2.length then acc2 else poetLoop rest limit acc2
    else
      poetLoop rest limit acc

/-- `get_poet_list` from `scraper.py` (lines 64–90), over an already-fetched
index page. -/
def get_poet_list (page : Page) (limit : Nat) : List (String × String) :=
  poetLoop page.anchors limit []

/-- Per-anchor acceptance test of the work-discovery loop in `get_poet_works`
(lines 114–133), mirroring its `continue` chain.  `norm` is
`normalize_poet_name(poet_name)` and `tok` is `norm.split()[0]`. -/
def worksLinkAccepts (norm tok : String) (a : Anchor) : Bool :=
  let text := pyStrip a.text
  let href := a.href
  if !pyStartsWith href "/kk/" then false
  else if is_navigation_text text then false
  else if !pyContains text " / " then false
  else if !pyContains (lastPartAfterSlash text) tok
          && !pyContains (lastPartAfterSlash text) norm then false
  else true

/-- `get_poet_works` from `scraper.py` (lines 101–136) over an already-fetched
poet page.  `norm_poet.split()[0]` raises `IndexError` when the normalized
name has no tokens; this is modelled by `none`. -/
def get_poet_works (poetName : String) (page : Page) : Option (List (String × String)) :=
  let norm := normalize_poet_name poetName
  match (pySplitWs norm).head? with
  | none => none
  | some tok =>
    some (page.anchors.filterMap fun a =>
      if worksLinkAccepts norm tok a then some (pyStrip a.text, BASE_URL ++ a.href)
      else none)

/-- Per-anchor acceptance test of the part-discovery loop in `get_work_parts`
(lines 169–185), mirroring its `continue` chain. -/
def partsLinkAccepts (norm tok : String) (a : Anchor) : Bool :=
  let text := pyStrip a.text
  let href := a.href
  if !pyStartsWith href "/kk/" then false
  else if is_navigation_text text then false
  else if !pyContains text " / " then false
  else if !pyContains (lastPartAfterSlash text) tok
          && !pyContains (lastPartAfterSlash text) norm then false
  else true

/-- `get_work_parts` from `scraper.py` (lines 158–187): fetch the work page
through the retrieval environment `env` (modelling `get_soup`), collect
part-candidates, and return them with the parsed page.  As in
`get_poet_works`, `norm_poet.split()[0]` on a token-less name is `none`. -/
def get_work_parts (env : String → Page) (poetName workUrl : String) :
    Option (List (String × String) × Page) :=
  let soup := env workUrl
  let norm := normalize_poet_name poetName
  match (pySplitWs norm).head? with
  | none => none
  | some tok =>
    some (soup.anchors.filterMap fun a =>
      if partsLinkAccepts norm tok a then some (pyStrip a.text, BASE_URL ++ a.href)
      else none, soup)

/-- The poem-container selectors tried first by `extract_poem_text`
(line 145). -/
def poemSelectors : List String := [".poem", "#poem", "div.mw-content-ltr"]

/-- The selector loop of `extract_poem_text` (lines 145–150): first selector
whose node exists (and is truthy) with non-empty text wins; otherwise the
loop falls through. -/
def tryPoemSelectors : List String → Page → Option String
  | [], _ => none
  | s :: rest, p =>
    match p.selectOne s with
    | some block =>
      if block.truthy then
        if block.text ≠ "" then some block.text else tryPoemSelectors rest p
      else tryPoemSelectors rest p
    | none => tryPoemSelectors rest p

/-- `extract_poem_text` from `scraper.py` (lines 143–155). -/
def extract_poem_text (p : Page) : String :=
  match tryPoemSelectors poemSelectors p with
  | some t => t
  | none =>
    match p.selectOne "#mw-content-text" with
    | some content => if content.truthy then content.text else p.fullText
    | none => p.fullText

/-- A part of a multipart work: `{"title": ..., "content": ...}`
(lines 205–208). -/
structure PartRecord where
  title : String
  content : String
deriving Repr, DecidableEq

/-- The work object built by `scrape_work` (lines 196–218): a tagged union of
the `"single"` and `"multipart"` shapes. -/
inductive WorkObj where
  | single (title : String) (content : String)
  | multipart (title : String) (parts : List PartRecord)
deriving Repr, DecidableEq

/-- `scrape_work` from `scraper.py` (lines 190–220), instrumented with the
list of URLs fetched through `env`, in fetch order (the work page itself via
`get_work_parts`, then each part page).  The source tests `if parts:` first;
the `[]` case here is its `else` branch. -/
def scrape_work (env : String → Page) (poetName workTitle workUrl : String) :
    Option (WorkObj × List String) :=
  match get_work_parts env poetName workUrl with
  | none => none
  | some (parts, soup) =>
    match parts with
    | [] => some (.single workTitle (extract_poem_text soup), [workUrl])
    | _ :: _ =>
      some (.multipart workTitle
              (parts.map fun pr => ⟨pr.1, extract_poem_text (env pr.2)⟩),
            workUrl :: parts.map fun pr => pr.2)

/-- The Work-Pattern Matcher of the specification: the owner-dependent
pattern filter shared by `get_poet_works` (lines 109–110 and 124–129) and
`get_work_parts` (lines 164–165 and 177–181), as a function of the link text
and the owner name.  `norm.split()[0]` on a token-less owner raises
`IndexError`, modelled by `none`. -/
def matchesWork (text ownerName : String) : Option Bool :=
  let norm := normalize_poet_name ownerName
  match (pySplitWs norm).head? with
  | none => none
  | some tok =>
    if !pyContains text " / " then some false
    else if !pyContains (lastPartAfterSlash text) tok
            && !pyContains (lastPartAfterSlash text) norm then some false
    else some true

/-! ## Helper lemmas -/

/-- Pages used as concrete instances in witnesses/counterexamples. -/
def pageEmpty : Page := ⟨[], fun _ => none, "TXT"⟩

/-- A retrieval environment returning the same empty page for every URL. -/
def envSingle : String → Page := fun _ => pageEmpty

theorem containsAux_ws_false (ch : Char) (pr : List Char)
    (hch : ch.isWhitespace = false) :
    ∀ s : List Char, (∀ c ∈ s, c.isWhitespace = true) → containsAux (ch :: pr) s = false := by
  intro s
  induction s with
  | nil => intro _; rfl
  | cons c cs ih =>
    intro hws
    have hc : c.isWhitespace = true := hws c (by simp)
    have hne : ch ≠ c := by
      intro h
      rw [h, hc] at hch
      exact Bool.noConfusion hch
    have hrest : containsAux (ch :: pr) cs = false :=
      ih fun x hx => hws x (by simp [hx])
    simp [containsAux, List.isPrefixOf, hne, hrest]

theorem replFuel_of_not_contains (pat rep : List Char) :
    ∀ (n : Nat) (s : List Char), containsAux pat s = false → replFuel pat rep n s = s := by
  intro n
  induction n with
  | zero => intro s _; rfl
  | succ m ih =>
    intro s hs
    match s with
    | [] => rfl
    | c :: cs =>
      simp only [containsAux, Bool.or_eq_false_iff] at hs
      simp [replFuel, hs.1, ih cs hs.2]

theorem pyReplace_ws (s pat rep : String) (hws : ∀ c ∈ s.data, c.isWhitespace = true)
    (ch : Char) (pr : List Char) (hpat : pat.data = ch :: pr)
    (hch : ch.isWhitespace = false) :
    pyReplace s pat rep = s := by
  unfold pyReplace
  rw [hpat, replFuel_of_not_contains _ _ _ _ (containsAux_ws_false ch pr hch s.data hws)]

theorem pyStrip_ws (s : String) (hws : ∀ c ∈ s.data, c.isWhitespace = true) :
    pyStrip s = "" := by
  unfold pyStrip listTrim
  rw [List.dropWhile_eq_nil_iff.mpr hws]
  rfl

theorem normalize_ws (owner : String) (hws : ∀ c ∈ owner.data, c.isWhitespace = true) :
    normalize_poet_name owner = "" := by
  unfold normalize_poet_name
  rw [pyReplace_ws owner "“" "\"" hws '“' [] (by decide) (by decide)]
  rw [pyReplace_ws owner "”" "\"" hws '”' [] (by decide) (by decide)]
  rw [pyReplace_ws owner doubledApos "\"" hws '\u0027' ['\u0027'] (by decide) (by decide)]
  exact pyStrip_ws owner hws

theorem normTokens_none (owner : String)
    (hws : ∀ c ∈ owner.data, c.isWhitespace = true) :
    (pySplitWs (normalize_poet_name owner)).head? = none := by
  rw [normalize_ws owner hws]
  rfl

/-! ## Claim C1 -/

/-- Claim C1, counterexample: on the empty owner name the pattern match does
not return `false`; the first-token lookup fails (Python `IndexError`,
modelled `none`), so `matchesWork text "" = some false` is violated. -/
theorem C1_counterexample :
    matchesWork "कविता / कवि" "" = none ∧
      ¬ matchesWork "कविता / कवि" "" = some false := by
  decide

/-- Claim C1 (amended): for an empty or purely-whitespace owner name the
work-pattern match never matches any link, but it does not return `false`
either — the token computation `norm_poet.split()[0]` fails, so
`matchesWork`, `get_poet_works` and `get_work_parts` all fail (`none`)
rather than returning a boolean or an empty result. -/
theorem C1_theorem (owner : String)
    (hws : ∀ c ∈ owner.data, c.isWhitespace = true)
    (text : String) (page : Page) (env : String → Page) (url : String) :
    matchesWork text owner = none ∧ get_poet_works owner page = none ∧
      get_work_parts env owner url = none := by
  have h := normTokens_none owner hws
  refine ⟨?_, ?_, ?_⟩
  · simp only [matchesWork]
    rw [h]
  · simp only [get_poet_works]
    rw [h]
  · simp only [get_work_parts]
    rw [h]

/-- Claim C1, witness for the amended theorem at a whitespace-only owner. -/
theorem C1_theorem_witness :
    matchesWork "क" " " = none ∧ get_poet_works " " pageEmpty = none ∧
      get_work_parts envSingle " " "u" = none :=
  C1_theorem " " (by decide) "क" pageEmpty envSingle "u"

/-! ## Claim C2 -/

/-- A category-namespace anchor whose text matches the work pattern. -/
def catAnchor : Anchor := ⟨"शीर्षक / कवि", "/kk/श्रेणी:कवि"⟩

/-- A page whose only in-content anchor is `catAnchor`. -/
def catPage : Page := ⟨[catAnchor], fun _ => none, ""⟩

/-- Claim C2, counterexample: a category-namespace link is accepted by the
work-discovery and part-discovery filters (they test no namespace prefix),
so the exclusion does not hold at every link-enumeration step. -/
theorem C2_counterexample :
    get_poet_works "कवि" catPage =
        some [("शीर्षक / कवि", "https://kavitakosh.org/kk/श्रेणी:कवि")] ∧
      Option.map Prod.fst (get_work_parts (fun _ => catPage) "कवि" "u") =
        some [("शीर्षक / कवि", "https://kavitakosh.org/kk/श्रेणी:कवि")] := by
  constructor
  · rfl
  · rfl

/-- Claim C2 (amended): anchors with category- or talk-namespace hrefs are
excluded only at the author-index enumeration (`get_poet_list`); the work-
and part-discovery filters apply no namespace check and can accept such
anchors (see the counterexample). -/
theorem C2_theorem (a : Anchor)
    (h : pyStartsWith a.href "/kk/श्रेणी:" = true ∨
         pyStartsWith a.href "/kk/वार्ता:" = true) :
    poetIndexAccepts a = false := by
  simp only [poetIndexAccepts]
  split_ifs with h1 h2 h3
  · rfl
  · rfl
  · rfl
  · exfalso
    apply h3
    rcases h with h | h <;> simp [h]

/-- Claim C2, witness: the index-level filter rejects the category anchor. -/
theorem C2_theorem_witness : poetIndexAccepts catAnchor = false :=
  C2_theorem catAnchor (Or.inl (by decide))

/-! ## Extractor lemmas -/

theorem tryPoem_cons (p : Page) (s : String) (rest : List String) :
    tryPoemSelectors (s :: rest) p =
      match p.selectOne s with
      | some block =>
        if block.truthy = true then
          (if block.text ≠ "" then some block.text else tryPoemSelectors rest p)
        else tryPoemSelectors rest p
      | none => tryPoemSelectors rest p := rfl

theorem extract_of_selectors (p : Page) (t : String)
    (h : tryPoemSelectors poemSelectors p = some t) :
    extract_poem_text p = t := by
  unfold extract_poem_text
  rw [h]

theorem extract_of_content (p : Page) (c : Tag)
    (h1 : tryPoemSelectors poemSelectors p = none)
    (h2 : p.selectOne "#mw-content-text" = some c) (h3 : c.truthy = true) :
    extract_poem_text p = c.text := by
  unfold extract_poem_text
  rw [h1, h2]
  simp [h3]

theorem extract_of_content_falsy (p : Page) (c : Tag)
    (h1 : tryPoemSelectors poemSelectors p = none)
    (h2 : p.selectOne "#mw-content-text" = some c) (h3 : ¬ c.truthy = true) :
    extract_poem_text p = p.fullText := by
  unfold extract_poem_text
  rw [h1, h2]
  simp [h3]

theorem extract_of_no_content (p : Page)
    (h1 : tryPoemSelectors poemSelectors p = none)
    (h2 : p.selectOne "#mw-content-text" = none) :
    extract_poem_text p = p.fullText := by
  unfold extract_poem_text
  rw [h1, h2]

theorem tryPoemSelectors_sound :
    ∀ (l : List String) (p : Page) (t : String), tryPoemSelectors l p = some t →
      ∃ s ∈ l, ∃ tag : Tag, p.selectOne s = some tag ∧ tag.truthy = true ∧
        t = tag.text ∧ tag.text ≠ "" := by
  intro l
  induction l with
  | nil =>
    intro p t h
    exact absurd h (by simp [tryPoemSelectors])
  | cons s rest ih =>
    intro p t h
    rw [tryPoem_cons] at h
    rcases hsel : p.selectOne s with _ | block <;> rw [hsel] at h
    · obtain ⟨s', hs', tag, htag⟩ := ih p t h
      exact ⟨s', by simp [hs'], tag, htag⟩
    · replace h :
          (if block.truthy = true then
            (if block.text ≠ "" then some block.text else tryPoemSelectors rest p)
          else tryPoemSelectors rest p) = some t := h
      by_cases hb : block.truthy = true
      · rw [if_pos hb] at h
        by_cases hne : block.text ≠ ""
        · rw [if_pos hne] at h
          refine ⟨s, by simp, block, hsel, hb, ?_, hne⟩
          exact ((Option.some.injEq _ _).mp h).symm
        · rw [if_neg hne] at h
          obtain ⟨s', hs', tag, htag⟩ := ih p t h
          exact ⟨s', by simp [hs'], tag, htag⟩
      · rw [if_neg hb] at h
        obtain ⟨s', hs', tag, htag⟩ := ih p t h
        exact ⟨s', by simp [hs'], tag, htag⟩

/-! ## Claim C3 -/

/-- A page whose main content region is present (and truthy) but extracts
empty text, while the page as a whole has text. -/
def emptyContentPage : Page :=
  ⟨[], fun s => if s = "#mw-content-text" then some ⟨true, ""⟩ else none, "PAGE"⟩

/-- Claim C3, counterexample: with no poem container, a present
`#mw-content-text` node with empty text, and non-empty whole-page text, the
extractor returns the empty string — it does not fall back to the entire
page's text on an empty main-content result. -/
theorem C3_counterexample :
    extract_poem_text emptyContentPage = "" ∧
      emptyContentPage.fullText = "PAGE" ∧
      ¬ extract_poem_text emptyContentPage = emptyContentPage.fullText := by
  refine ⟨rfl, rfl, ?_⟩
  decide

/-- Claim C3 (amended): the cascade tries the poem-container selectors first
(first non-empty text wins); when they all fail, a present main content
region wins and its text is returned even when empty; the entire page's
text is used only when the main content region is absent (or falsy), not
when its text is empty. -/
theorem C3_theorem (p : Page) (c : Tag)
    (h1 : tryPoemSelectors poemSelectors p = none)
    (h2 : p.selectOne "#mw-content-text" = some c) (h3 : c.truthy = true) :
    extract_poem_text p = c.text :=
  extract_of_content p c h1 h2 h3

/-- A page whose main content region carries non-empty text. -/
def filledContentPage : Page :=
  ⟨[], fun s => if s = "#mw-content-text" then some ⟨true, "कविता"⟩ else none, "X"⟩

/-- Claim C3, witness at a page with a populated main content region. -/
theorem C3_theorem_witness : extract_poem_text filledContentPage = "कविता" :=
  C3_theorem filledContentPage ⟨true, "कविता"⟩ (by decide) (by decide) rfl

/-! ## Claim C4 -/

/-- Claim C4: the extractor is total — on every page it returns one of the
page's own texts: the whole-page text, the main content region's text, or a
non-empty poem-container text; in particular it never fails, and when no
selector matches anything it still returns the whole page's text. -/
theorem C4_theorem (p : Page) :
    (extract_poem_text p = p.fullText ∨
      (∃ c : Tag, p.selectOne "#mw-content-text" = some c ∧
        extract_poem_text p = c.text) ∨
      (∃ s ∈ poemSelectors, ∃ tag : Tag, p.selectOne s = some tag ∧
        extract_poem_text p = tag.text ∧ tag.text ≠ "")) ∧
    ((∀ sel : String, p.selectOne sel = none) →
      extract_poem_text p = p.fullText) := by
  constructor
  · rcases htry : tryPoemSelectors poemSelectors p with _ | t
    · rcases hsel : p.selectOne "#mw-content-text" with _ | c
      · exact Or.inl (extract_of_no_content p htry hsel)
      · by_cases hb : c.truthy = true
        · exact Or.inr (Or.inl ⟨c, rfl, extract_of_content p c htry hsel hb⟩)
        · exact Or.inl (extract_of_content_falsy p c htry hsel hb)
    · obtain ⟨s, hs, tag, hsel, hb, ht, hne⟩ :=
        tryPoemSelectors_sound poemSelectors p t htry
      refine Or.inr (Or.inr ⟨s, hs, tag, hsel, ?_, hne⟩)
      rw [extract_of_selectors p t htry, ht]
  · intro hall
    have htry : tryPoemSelectors poemSelectors p = none := by
      rcases h : tryPoemSelectors poemSelectors p with _ | t
      · rfl
      · obtain ⟨s, _, tag, hsel, _⟩ := tryPoemSelectors_sound poemSelectors p t h
        rw [hall s] at hsel
        exact Option.noConfusion hsel
    exact extract_of_no_content p htry (hall "#mw-content-text")

/-- Claim C4, witness: a page with no matching selectors still yields its
whole-page text. -/
theorem C4_theorem_witness : extract_poem_text pageEmpty = "TXT" :=
  ( C4_theorem pageEmpty).2 (fun _ => rfl)

/-! ## Matcher lemmas -/

theorem matchesWork_eq (text owner tok : String)
    (h : (pySplitWs (normalize_poet_name owner)).head? = some tok) :
    matchesWork text owner =
      some (pyContains text " / " &&
        (pyContains (lastPartAfterSlash text) tok ||
         pyContains (lastPartAfterSlash text) (normalize_poet_name owner))) := by
  have key : matchesWork text owner =
      (match (pySplitWs (normalize_poet_name owner)).head? with
        | none => none
        | some tok =>
          if !pyContains text " / " then some false
          else if !pyContains (lastPartAfterSlash text) tok
                  && !pyContains (lastPartAfterSlash text) (normalize_poet_name owner) then
            some false
          else some true) := rfl
  rw [key, h]
  cases h1 : pyContains text " / " <;>
    cases h2 : pyContains (lastPartAfterSlash text) tok <;>
      cases h3 : pyContains (lastPartAfterSlash text) (normalize_poet_name owner) <;>
        simp [h1, h2, h3]

theorem worksLinkAccepts_eq (norm tok : String) (a : Anchor) :
    worksLinkAccepts norm tok a =
      (pyStartsWith a.href "/kk/" && !is_navigation_text (pyStrip a.text) &&
       pyContains (pyStrip a.text) " / " &&
       (pyContains (lastPartAfterSlash (pyStrip a.text)) tok ||
        pyContains (lastPartAfterSlash (pyStrip a.text)) norm)) := by
  simp only [worksLinkAccepts]
  cases h1 : pyStartsWith a.href "/kk/" <;>
    cases h2 : is_navigation_text (pyStrip a.text) <;>
      cases h3 : pyContains (pyStrip a.text) " / " <;>
        cases h4 : pyContains (lastPartAfterSlash (pyStrip a.text)) tok <;>
          cases h5 : pyContains (lastPartAfterSlash (pyStrip a.text)) norm <;>
            simp [h1, h2, h3, h4, h5]

/-! ## Claim C5 -/

/-- Claim C5: for an owner name whose normalized form has a first token, a
link text matches iff it contains the literal separator `" / "` and the
trimmed substring after the last `/` contains the owner's first token or
the full normalized owner name; and the work-discovery filter accepts an
anchor iff its href is in the article namespace, its text passes the
navigation filter, and the text matches this pattern. -/
theorem C5_theorem (text owner : String)
    (hnz : pySplitWs (normalize_poet_name owner) ≠ []) :
    (matchesWork text owner = some true ↔
      pyContains text " / " = true ∧
        (pyContains (lastPartAfterSlash text)
            ((pySplitWs (normalize_poet_name owner)).headD "") = true ∨
         pyContains (lastPartAfterSlash text) (normalize_poet_name owner) = true)) ∧
    (∀ a : Anchor,
      worksLinkAccepts (normalize_poet_name owner)
          ((pySplitWs (normalize_poet_name owner)).headD "") a = true ↔
        pyStartsWith a.href "/kk/" = true ∧
          is_navigation_text (pyStrip a.text) = false ∧
          matchesWork (pyStrip a.text) owner = some true) := by
  obtain ⟨tok, rest, hl⟩ :
      ∃ tok rest, pySplitWs (normalize_poet_name owner) = tok :: rest := by
    rcases hcase : pySplitWs (normalize_poet_name owner) with _ | ⟨tok, rest⟩
    · exact absurd hcase hnz
    · exact ⟨tok, rest, rfl⟩
  have hhead : (pySplitWs (normalize_poet_name owner)).head? = some tok := by
    rw [hl]; rfl
  have hD : (pySplitWs (normalize_poet_name owner)).headD "" = tok := by
    rw [hl]; rfl
  constructor
  · rw [matchesWork_eq text owner tok hhead, hD]
    simp [Bool.and_eq_true, Bool.or_eq_true]
  · intro a
    rw [worksLinkAccepts_eq, hD,
        matchesWork_eq (pyStrip a.text) owner tok hhead]
    cases h1 : pyStartsWith a.href "/kk/" <;>
      cases h2 : is_navigation_text (pyStrip a.text) <;>
        simp [h1, h2, Bool.and_eq_true, Bool.or_eq_true]

/-- Claim C5, witness: the spec's own example pair matches. -/
theorem C5_theorem_witness :
    matchesWork "आँसू / महादेवी वर्मा" "महादेवी वर्मा" = some true :=
  (( C5_theorem "आँसू / महादेवी वर्मा" "महादेवी वर्मा" (by decide)).1).mpr (by decide)

/-! ## Work-resolver lemmas -/

theorem get_work_parts_eq (env : String → Page) (poet url : String) :
    get_work_parts env poet url =
      (match (pySplitWs (normalize_poet_name poet)).head? with
        | none => none
        | some tok =>
          some ((env url).anchors.filterMap fun a =>
              if partsLinkAccepts (normalize_poet_name poet) tok a then
                some (pyStrip a.text, BASE_URL ++ a.href)
              else none,
            env url)) := rfl

theorem scrape_work_eq (env : String → Page) (poet title url : String) :
    scrape_work env poet title url =
      (match get_work_parts env poet url with
        | none => none
        | some (parts, soup) =>
          match parts with
          | [] => some (.single title (extract_poem_text soup), [url])
          | _ :: _ =>
            some (.multipart title
                    (parts.map fun pr => ⟨pr.1, extract_poem_text (env pr.2)⟩),
                  url :: parts.map fun pr => pr.2)) := rfl

theorem get_work_parts_page (env : String → Page) (poet url : String)
    (parts : List (String × String)) (soup : Page)
    (h : get_work_parts env poet url = some (parts, soup)) : soup = env url := by
  rw [get_work_parts_eq] at h
  rcases hh : (pySplitWs (normalize_poet_name poet)).head? with _ | tok <;> rw [hh] at h
  · exact Option.noConfusion h
  · replace h :
        some ((env url).anchors.filterMap fun a =>
            if partsLinkAccepts (normalize_poet_name poet) tok a then
              some (pyStrip a.text, BASE_URL ++ a.href)
            else none,
          env url) = some (parts, soup) := h
    exact (congrArg Prod.snd ((Option.some.injEq _ _).mp h)).symm

/-! ## Claim C6 -/

/-- Claim C6: on a work page with zero part-candidates, the resolver returns
the `Single` variant whose title is the work's title and whose content is the
extractor's result on the already-fetched work page, and the only URL fetched
is the work page itself (no second retrieval). -/
theorem C6_theorem (env : String → Page) (poet title url : String) (soup : Page)
    (h : get_work_parts env poet url = some ([], soup)) :
    scrape_work env poet title url =
      some (WorkObj.single title (extract_poem_text (env url)), [url]) := by
  have hs := get_work_parts_page env poet url [] soup h
  rw [scrape_work_eq, h, hs]

/-- Claim C6, witness at an empty work page. -/
theorem C6_theorem_witness :
    scrape_work envSingle "कवि" "श" "u" =
      some (WorkObj.single "श" (extract_poem_text (envSingle "u")), ["u"]) :=
  C6_theorem envSingle "कवि" "श" "u" pageEmpty (by rfl)

/-! ## Claim C7 -/

/-- Claim C7: on a work page with `N ≥ 1` part-candidates, the resolver
returns the `Multipart` variant whose parts are exactly the candidates, in
page order, each holding the candidate's title and the extractor's result on
the candidate's own fetched page; the record has exactly `N` parts, and the
part pages are fetched in candidate order after the work page. -/
theorem C7_theorem (env : String → Page) (poet title url : String)
    (parts : List (String × String)) (soup : Page)
    (h : get_work_parts env poet url = some (parts, soup)) (hne : parts ≠ []) :
    scrape_work env poet title url =
      some (WorkObj.multipart title
              (parts.map fun pr => ⟨pr.1, extract_poem_text (env pr.2)⟩),
            url :: parts.map fun pr => pr.2) ∧
    (parts.map fun pr =>
        (⟨pr.1, extract_poem_text (env pr.2)⟩ : PartRecord)).length = parts.length := by
  constructor
  · rcases parts with _ | ⟨p0, ps⟩
    · exact absurd rfl hne
    · rw [scrape_work_eq, h]
  · simp

/-- A work page holding one part-candidate anchor. -/
def partWorkPage : Page := ⟨[⟨"भाग / कवि", "/kk/भाग1"⟩], fun _ => none, "W"⟩

/-- A part page with plain text content. -/
def partContentPage : Page := ⟨[], fun _ => none, "सामग्री"⟩

/-- Retrieval environment serving `partWorkPage` for the work URL and
`partContentPage` for every other URL. -/
def envMulti : String → Page :=
  fun u => if u = "u" then partWorkPage else partContentPage

/-- Claim C7, witness at a one-part work page. -/
theorem C7_theorem_witness :
    scrape_work envMulti "कवि" "श" "u" =
      some (WorkObj.multipart "श" [⟨"भाग / कवि", "सामग्री"⟩],
            ["u", "https://kavitakosh.org/kk/भाग1"]) := by
  have h := ( C7_theorem envMulti "कवि" "श" "u"
      [("भाग / कवि", "https://kavitakosh.org/kk/भाग1")] partWorkPage
      (by rfl) (by decide)).1
  exact h

/-! ## Claim C8 -/

/-- The data-model invariant of a constructed work record: a multipart record
has at least one part; a single record's content is the extractor's result on
the work page (in particular the content field is always present, though
possibly empty). -/
def workInvariant (env : String → Page) (url : String) : WorkObj → Prop
  | .single _ c => c = extract_poem_text (env url)
  | .multipart _ ps => ps ≠ []

/-- Claim C8: every work record `scrape_work` constructs satisfies the
data-model invariant. -/
theorem C8_theorem (env : String → Page) (poet title url : String)
    (obj : WorkObj) (trace : List String)
    (h : scrape_work env poet title url = some (obj, trace)) :
    workInvariant env url obj := by
  rw [scrape_work_eq] at h
  rcases hw : get_work_parts env poet url with _ | ⟨parts, soup⟩ <;> rw [hw] at h
  · exact Option.noConfusion h
  · rcases parts with _ | ⟨p0, ps⟩
    · replace h :
          some (WorkObj.single title (extract_poem_text soup), [url]) =
            some (obj, trace) := h
      simp only [Option.some.injEq, Prod.mk.injEq] at h
      rw [← h.1]
      have hs := get_work_parts_page env poet url [] soup hw
      simp [workInvariant, hs]
    · replace h :
          some (WorkObj.multipart title
                  ((p0 :: ps).map fun pr => ⟨pr.1, extract_poem_text (env pr.2)⟩),
                url :: (p0 :: ps).map fun pr => pr.2) = some (obj, trace) := h
      simp only [Option.some.injEq, Prod.mk.injEq] at h
      rw [← h.1]
      simp [workInvariant]

/-- Claim C8, witness at a single-variant record. -/
theorem C8_theorem_witness :
    workInvariant envSingle "u"
      (WorkObj.single "श" (extract_poem_text pageEmpty)) :=
  C8_theorem envSingle "कवि" "श" "u" _ _ (by rfl)

/-! ## Claim C9 -/

theorem accepts_eq (norm tok : String) (a : Anchor) :
    worksLinkAccepts norm tok a = partsLinkAccepts norm tok a := rfl

theorem get_poet_works_eq (poet : String) (page : Page) :
    get_poet_works poet page =
      (match (pySplitWs (normalize_poet_name poet)).head? with
        | none => none
        | some tok =>
          some (page.anchors.filterMap fun a =>
            if worksLinkAccepts (normalize_poet_name poet) tok a then
              some (pyStrip a.text, BASE_URL ++ a.href)
            else none)) := rfl

/-- Claim C9: the part-discovery heuristic is the same function of
(anchor, owner) as the work-discovery heuristic — the per-anchor filters
agree pointwise, and the part list found on a page equals the work list
`get_poet_works` would find on that same page. -/
theorem C9_theorem :
    (∀ (norm tok : String) (a : Anchor),
        worksLinkAccepts norm tok a = partsLinkAccepts norm tok a) ∧
    (∀ (env : String → Page) (poet url : String),
        Option.map Prod.fst (get_work_parts env poet url) =
          get_poet_works poet (env url)) := by
  refine ⟨fun norm tok a => accepts_eq norm tok a, fun env poet url => ?_⟩
  rw [get_work_parts_eq, get_poet_works_eq]
  rcases hh : (pySplitWs (normalize_poet_name poet)).head? with _ | tok
  · rfl
  · rfl

/-! ## Claim C10 -/

theorem prefix_append_prefix {p s b : List Char} (h : p <+: s) :
    b ++ p <+: b ++ s := by
  obtain ⟨t, ht⟩ := h
  exact ⟨t, by rw [List.append_assoc, ht]⟩

theorem full_url_prefix (href : String) (h : pyStartsWith href "/kk/" = true) :
    pyStartsWith (BASE_URL ++ href) "https://kavitakosh.org/kk/" = true := by
  unfold pyStartsWith at h ⊢
  rw [List.isPrefixOf_iff_prefix] at h ⊢
  rw [String.data_append]
  have hlit : ("https://kavitakosh.org/kk/" : String).data =
      BASE_URL.data ++ ("/kk/" : String).data := by decide
  rw [hlit]
  exact prefix_append_prefix h

theorem poetIndexAccepts_kk (a : Anchor) (h : poetIndexAccepts a = true) :
    pyStartsWith a.href "/kk/" = true := by
  cases hsw : pyStartsWith a.href "/kk/" with
  | false => simp [poetIndexAccepts, hsw] at h
  | true => rfl

theorem worksLinkAccepts_kk (norm tok : String) (a : Anchor)
    (h : worksLinkAccepts norm tok a = true) :
    pyStartsWith a.href "/kk/" = true := by
  cases hsw : pyStartsWith a.href "/kk/" with
  | false => simp [worksLinkAccepts, hsw] at h
  | true => rfl

theorem partsLinkAccepts_kk (norm tok : String) (a : Anchor)
    (h : partsLinkAccepts norm tok a = true) :
    pyStartsWith a.href "/kk/" = true := by
  cases hsw : pyStartsWith a.href "/kk/" with
  | false => simp [partsLinkAccepts, hsw] at h
  | true => rfl

theorem poetLoop_mem :
    ∀ (anchors : List Anchor) (limit : Nat) (acc : List (String × String))
      (e : String × String), e ∈ poetLoop anchors limit acc →
      e ∈ acc ∨ ∃ a ∈ anchors, poetIndexAccepts a = true ∧
        e = (pyStrip a.text, BASE_URL ++ a.href) := by
  intro anchors
  induction anchors with
  | nil => intro limit acc e he; exact Or.inl he
  | cons a rest ih =>
    intro limit acc e he
    simp only [poetLoop] at he
    by_cases hacc : poetIndexAccepts a = true
    · rw [if_pos hacc] at he
      by_cases hlim : limit ≤ (acc ++ [(pyStrip a.text, BASE_URL ++ a.href)]).length
      · rw [if_pos hlim] at he
        rcases List.mem_append.mp he with hmem | hmem
        · exact Or.inl hmem
        · exact Or.inr ⟨a, by simp, hacc, by simpa using hmem⟩
      · rw [if_neg hlim] at he
        rcases ih limit _ e he with hmem | ⟨a', ha', hacc', he'⟩
        · rcases List.mem_append.mp hmem with hmem' | hmem'
          · exact Or.inl hmem'
          · exact Or.inr ⟨a, by simp, hacc, by simpa using hmem'⟩
        · exact Or.inr ⟨a', by simp [ha'], hacc', he'⟩
    · rw [if_neg hacc] at he
      rcases ih limit acc e he with hmem | ⟨a', ha', hacc', he'⟩
      · exact Or.inl hmem
      · exact Or.inr ⟨a', by simp [ha'], hacc', he'⟩

theorem filterMap_entry_url {accepts : Anchor → Bool} {anchors : List Anchor}
    {e : String × String}
    (he : e ∈ anchors.filterMap fun a =>
        if accepts a then some (pyStrip a.text, BASE_URL ++ a.href) else none) :
    ∃ a ∈ anchors, accepts a = true ∧ e = (pyStrip a.text, BASE_URL ++ a.href) := by
  obtain ⟨a, ha, hfa⟩ := List.mem_filterMap.mp he
  by_cases hacc : accepts a = true
  · rw [if_pos hacc] at hfa
    exact ⟨a, ha, hacc, ((Option.some.injEq _ _).mp hfa).symm⟩
  · rw [if_neg hacc] at hfa
    exact absurd hfa (by simp)

/-- Claim C10: at every link-enumeration step, an anchor whose href does not
begin with `/kk/` is rejected, and every collected entry's URL is the base
URL concatenated with the href — so every stored URL starts with
`https://kavitakosh.org/kk/`. -/
theorem C10_theorem :
    (∀ (page : Page) (limit : Nat) (e : String × String),
        e ∈ get_poet_list page limit →
        pyStartsWith e.2 "https://kavitakosh.org/kk/" = true) ∧
    (∀ (poet : String) (page : Page) (works : List (String × String)),
        get_poet_works poet page = some works →
        ∀ e ∈ works, pyStartsWith e.2 "https://kavitakosh.org/kk/" = true) ∧
    (∀ (env : String → Page) (poet url : String)
        (parts : List (String × String)) (soup : Page),
        get_work_parts env poet url = some (parts, soup) →
        ∀ e ∈ parts, pyStartsWith e.2 "https://kavitakosh.org/kk/" = true) ∧
    (∀ (a : Anchor) (norm tok : String), pyStartsWith a.href "/kk/" = false →
        poetIndexAccepts a = false ∧ worksLinkAccepts norm tok a = false ∧
          partsLinkAccepts norm tok a = false) := by
  refine ⟨?_, ?_, ?_, ?_⟩
  · intro page limit e he
    rcases poetLoop_mem page.anchors limit [] e he with hmem | ⟨a, _, hacc, he'⟩
    · exact absurd hmem (List.not_mem_nil e)
    · rw [he']
      exact full_url_prefix a.href (poetIndexAccepts_kk a hacc)
  · intro poet page works h e he
    rw [get_poet_works_eq] at h
    rcases hh : (pySplitWs (normalize_poet_name poet)).head? with _ | tok <;> rw [hh] at h
    · exact Option.noConfusion h
    · replace h :
          some (page.anchors.filterMap fun a =>
            if worksLinkAccepts (normalize_poet_name poet) tok a then
              some (pyStrip a.text, BASE_URL ++ a.href)
            else none) = some works := h
      rw [← (Option.some.injEq _ _).mp h] at he
      obtain ⟨a, _, hacc, he'⟩ := filterMap_entry_url he
      rw [he']
      exact full_url_prefix a.href (worksLinkAccepts_kk _ tok a hacc)
  · intro env poet url parts soup h e he
    rw [get_work_parts_eq] at h
    rcases hh : (pySplitWs (normalize_poet_name poet)).head? with _ | tok <;> rw [hh] at h
    · exact Option.noConfusion h
    · replace h :
          some ((env url).anchors.filterMap fun a =>
            if partsLinkAccepts (normalize_poet_name poet) tok a then
              some (pyStrip a.text, BASE_URL ++ a.href)
            else none,
          env url) = some (parts, soup) := h
      simp only [Option.some.injEq, Prod.mk.injEq] at h
      rw [← h.1] at he
      obtain ⟨a, _, hacc, he'⟩ := filterMap_entry_url he
      rw [he']
      exact full_url_prefix a.href (partsLinkAccepts_kk _ tok a hacc)
  · intro a norm tok h
    refine ⟨?_, ?_, ?_⟩ <;> simp [poetIndexAccepts, worksLinkAccepts, partsLinkAccepts, h]

/-- An index anchor in the article namespace. -/
def poetAnchor : Anchor := ⟨"कवि अ", "/kk/कवि"⟩

/-- An index page with a single article-namespace anchor. -/
def indexPage : Page := ⟨[poetAnchor], fun _ => none, ""⟩

/-- Claim C10, witness: the single collected index entry's URL carries the
site-article prefix. -/
theorem C10_theorem_witness :
    pyStartsWith "https://kavitakosh.org/kk/कवि" "https://kavitakosh.org/kk/" = true :=
  C10_theorem.1 indexPage 5 ("कवि अ", "https://kavitakosh.org/kk/कवि") (by decide)
